import Mathlib

/-! # RotaryValve (`src/Valve.h`)

A shallow embedding of the `RotaryValve` class that drives an ERV-06 rotary valve over a
serial line, together with the properties of its frame encoder, its checksum verification,
its response capture loop and its `isHome` flag.

Conventions of the embedding:

* `uint8_t` / `unsigned char` values are natural numbers below `256`, `uint16_t` values are
  natural numbers below `65536`; every conversion to one of these types that can lose bits is
  written as an explicit `% 256` / `% 65536`.
* Arithmetic on these values is carried out in `int` after integer promotion.  On the mbed
  targets `int` has 32 bits and `start + address + func + param + end` is at most
  `4 * 255 + 65535`, so the `int` sum is the exact sum of natural numbers.
* The two 8-byte arrays `buff` and `message` are lists of bytes (of length 8 in every
  well-formed state).
* A member function that changes the object returns the new object; a member function that can
  block for ever on the serial line returns an `Option`, `none` standing for "never returns".
-/

namespace Valve

/-! ## Type definitions -/

/-- The enum `Position`: the twelve ports of the valve. -/
inductive Position where
  | ONE | TWO | THREE | FOUR | FIVE | SIX
  | SEVEN | EIGHT | NINE | TEN | ELEVEN | TWELVE
  deriving DecidableEq, Repr

/-- The numeric value of each enumerator of `Position`. -/
def Position.val : Position → Nat
  | .ONE => 0x0001
  | .TWO => 0x0002
  | .THREE => 0x0003
  | .FOUR => 0x0004
  | .FIVE => 0x0005
  | .SIX => 0x0006
  | .SEVEN => 0x0007
  | .EIGHT => 0x0008
  | .NINE => 0x0009
  | .TEN => 0x000A
  | .ELEVEN => 0x000B
  | .TWELVE => 0x000C

/-- The enum `Action`: function and parameter in one value, `FUNC|PARAML|PARAMH`. -/
inductive Action where
  | STATUS_VALVE | STATUS_MOTOR
  deriving DecidableEq, Repr

/-- The numeric value of each enumerator of `Action`. -/
def Action.val : Action → Nat
  | .STATUS_VALVE => (0x3E <<< 16) ||| 0x0000
  | .STATUS_MOTOR => (0x4A <<< 16) ||| 0x0000

/-! ## The serial channel -/

/-- Modelled from the spec: the serial channel (the mbed class `BufferedSerial`, which is not
part of the sources).  The spec treats it "purely as `write(bytes) / read(n) -> bytes`,
blocking": `written` records every write operation, oldest first, and `pending` is the stream
of bytes the device sends, consumed from the front. -/
structure BufferedSerial where
  written : List (List Nat)
  pending : List Nat
  deriving DecidableEq, Repr

/-- Modelled from the spec: `out.write(bytes, n)`, one write operation of the given bytes. -/
def BufferedSerial.write (out : BufferedSerial) (bytes : List Nat) : BufferedSerial :=
  { out with written := out.written ++ [bytes] }

/-- Modelled from the spec: `out.read(dst, n)`, a blocking read of exactly `n` bytes from the
front of the stream; `none` when the stream ends before `n` bytes have arrived (the call
blocks for ever). -/
def BufferedSerial.read (out : BufferedSerial) (n : Nat) : Option (List Nat × BufferedSerial) :=
  if n ≤ out.pending.length then
    some (out.pending.take n, { out with pending := out.pending.drop n })
  else
    none

/-- Bytes `src` stored into the array `dst` from index `off` on (what a read into
`&dst[off]` does to the array). -/
def store (dst : List Nat) (off : Nat) (src : List Nat) : List Nat :=
  dst.take off ++ src ++ dst.drop (off + src.length)

/-- One completed operation on the serial line, as the line sees it: a write of some bytes or
a read that delivered some bytes. -/
inductive ChannelOp where
  | write (bytes : List Nat)
  | read (bytes : List Nat)
  deriving DecidableEq, Repr

/-- The operation is a read. -/
def ChannelOp.isRead : ChannelOp → Bool
  | .write _ => false
  | .read _ => true

/-! ## The class -/

/-- The data members of `class RotaryValve`.  `end_` is the member `end`. -/
structure RotaryValve where
  tx : Nat
  rx : Nat
  baudrate : Nat
  start : Nat
  address : Nat
  func : Nat
  param : Nat
  action : Action
  end_ : Nat
  checksum : Nat
  buff : List Nat
  message : List Nat
  isHome : Bool
  deriving DecidableEq, Repr

namespace RotaryValve

/-- Every member holds a value of its C++ type. -/
def WF (s : RotaryValve) : Prop :=
  s.baudrate < 4294967296 ∧ s.start < 256 ∧ s.address < 256 ∧ s.func < 256 ∧
  s.param < 65536 ∧ s.end_ < 256 ∧ s.checksum < 65536 ∧
  s.buff.length = 8 ∧ (∀ b ∈ s.buff, b < 256) ∧
  s.message.length = 8 ∧ (∀ b ∈ s.message, b < 256)

instance (s : RotaryValve) : Decidable s.WF := by
  unfold WF; infer_instance

/-- The constructor: it assigns `tx`, `rx`, `address` and `baudrate`, and `isHome` has the
default member initializer `false`; every other member keeps the indeterminate value `raw`
it had in the storage of the object. -/
def new (raw : RotaryValve) (TX RX : Nat) (adrs : Nat) (baud : Nat) : RotaryValve :=
  { raw with tx := TX, rx := RX, address := adrs, baudrate := baud, isHome := false }

/-- The member function `buildPacket`. -/
def buildPacket (s : RotaryValve) : RotaryValve :=
  let start := 0xCC
  let end_ := 0xDD
  let checksum := (start + s.address + s.func + s.param + end_) % 65536
  let paramH := ((s.param &&& 0xFF00) >>> 8) % 256
  let paramL := (s.param &&& 0xFF) % 256
  let sumH := ((checksum &&& 0xFF00) >>> 8) % 256
  let sumL := (checksum &&& 0xFF) % 256
  { s with
    start := start
    end_ := end_
    checksum := checksum
    buff := [start, s.address, s.func, paramL, paramH, end_, sumL, sumH] }

/-- The member function `getBuff`: the 8 bytes of the static array `packet` it returns. -/
def getBuff (s : RotaryValve) : List Nat :=
  (List.range 8).map fun i => s.buff.getD i 0

/-- The member function `getMessage`: the 8 bytes of the static array `packet` it returns. -/
def getMessage (s : RotaryValve) : List Nat :=
  (List.range 8).map fun i => s.message.getD i 0

/-- The member function `Verify`: the returned `bool` and the object after the call.  The
member `checksum` is a `uint16_t`; the sum it is compared with is an `int`. -/
def Verify (s : RotaryValve) : Bool × RotaryValve :=
  let s1 :=
    if s.checksum ≠ s.start + s.address + s.func + s.param + s.end_ then
      { s with checksum := (s.start + s.address + s.func + s.param + s.end_) % 65536 }
    else s
  if s1.checksum = s1.start + s1.address + s1.func + s1.param + s1.end_ then
    (true, s1)
  else
    (false, s1)

/-- The `do ... while(listening)` loop of `sendPacket` on the array `message` and the stream
of pending bytes: each round reads one byte into `message[0]` (`[]`: the read blocks for
ever); when that byte is `0xCC` the next 7 bytes are read into `message[1..7]` and the loop
ends.  The result is the final `message` and the bytes left in the stream. -/
def sendPacket.listen (message : List Nat) : List Nat → Option (List Nat × List Nat)
  | [] => none
  | b :: rest =>
    let message := store message 0 [b]
    if message.getD 0 0 = 0xCC then
      match BufferedSerial.read ⟨[], rest⟩ 7 with
      | none => none
      | some (bytes, out) => some (store message 1 bytes, out.pending)
    else
      sendPacket.listen message rest

/-- The member function `sendPacket` on the object and the serial line.  The local
`BufferedSerial out(tx, rx, baudrate)` is the line `out`; enabling input and output and the
two `wait_us(1000)` change neither the object nor the line. -/
def sendPacket (s : RotaryValve) (out : BufferedSerial) : Option (RotaryValve × BufferedSerial) :=
  let (ok, s) := s.Verify
  if ok then
    let out := out.write (s.buff.take 8)
    let s := { s with message := List.replicate 8 0 }
    match sendPacket.listen s.message out.pending with
    | none => none
    | some (message, rest) => some ({ s with message := message }, { out with pending := rest })
  else
    some (s, out)

/-- The member function `Move`. -/
def Move (s : RotaryValve) (out : BufferedSerial) (position : Position) :
    Option (RotaryValve × BufferedSerial) :=
  let s := { s with func := 0x44 }
  let s := { s with param := position.val }
  let s := s.buildPacket
  match s.sendPacket out with
  | none => none
  | some (s, out) => some ({ s with isHome := false }, out)

/-- The member function `Home`. -/
def Home (s : RotaryValve) (out : BufferedSerial) : Option (RotaryValve × BufferedSerial) :=
  let s := { s with func := 0x45 }
  let s := { s with param := 0x00 }
  let s := s.buildPacket
  match s.sendPacket out with
  | none => none
  | some (s, out) => some ({ s with isHome := true }, out)

/-! ### The calls together with the operations they perform on the line -/

/-- The loop of `sendPacket` as in `sendPacket.listen`, together with the reads it completes, in
program order.  A read that blocks for ever completes nothing and is not listed. -/
def sendPacket.listenTraced (message : List Nat) :
    List Nat → List ChannelOp × Option (List Nat × List Nat)
  | [] => ([], none)
  | b :: rest =>
    let message := store message 0 [b]
    if message.getD 0 0 = 0xCC then
      match BufferedSerial.read ⟨[], rest⟩ 7 with
      | none => ([ChannelOp.read [b]], none)
      | some (bytes, out) =>
        ([ChannelOp.read [b], ChannelOp.read bytes], some (store message 1 bytes, out.pending))
    else
      (ChannelOp.read [b] :: (sendPacket.listenTraced message rest).1,
        (sendPacket.listenTraced message rest).2)

/-- The member function `sendPacket` as in `sendPacket`, together with the operations it
completes on the line, in program order: `out.write(&buff, 8)` first, then the reads of the
loop. -/
def sendPacket.traced (s : RotaryValve) (out : BufferedSerial) :
    List ChannelOp × Option (RotaryValve × BufferedSerial) :=
  let (ok, s) := s.Verify
  if ok then
    let out := out.write (s.buff.take 8)
    let s := { s with message := List.replicate 8 0 }
    match sendPacket.listenTraced s.message out.pending with
    | (ops, none) => (ChannelOp.write (s.buff.take 8) :: ops, none)
    | (ops, some (message, rest)) =>
      (ChannelOp.write (s.buff.take 8) :: ops,
        some ({ s with message := message }, { out with pending := rest }))
  else
    ([], some (s, out))

/-- The member function `Move` as in `Move`, together with the operations it completes on the
line. -/
def Move.traced (s : RotaryValve) (out : BufferedSerial) (position : Position) :
    List ChannelOp × Option (RotaryValve × BufferedSerial) :=
  let s := { s with func := 0x44 }
  let s := { s with param := position.val }
  let s := s.buildPacket
  match sendPacket.traced s out with
  | (ops, none) => (ops, none)
  | (ops, some (s, out)) => (ops, some ({ s with isHome := false }, out))

/-- The member function `Home` as in `Home`, together with the operations it completes on the
line. -/
def Home.traced (s : RotaryValve) (out : BufferedSerial) :
    List ChannelOp × Option (RotaryValve × BufferedSerial) :=
  let s := { s with func := 0x45 }
  let s := { s with param := 0x00 }
  let s := s.buildPacket
  match sendPacket.traced s out with
  | (ops, none) => (ops, none)
  | (ops, some (s, out)) => (ops, some ({ s with isHome := true }, out))

/-! ### Sequences of calls -/

/-- A call of one of the public member functions. -/
inductive Op where
  | buildPacket
  | getBuff
  | getMessage
  | Verify
  | sendPacket
  | Move (position : Position)
  | Home
  deriving DecidableEq, Repr

/-- The object and the line after one call; `none` when the call never returns.  `getBuff` and
`getMessage` copy into their own static array `packet` and assign no member. -/
def call (s : RotaryValve) (out : BufferedSerial) : Op → Option (RotaryValve × BufferedSerial)
  | .buildPacket => some (s.buildPacket, out)
  | .getBuff => some (s, out)
  | .getMessage => some (s, out)
  | .Verify => some (s.Verify.2, out)
  | .sendPacket => s.sendPacket out
  | .Move position => s.Move out position
  | .Home => s.Home out

/-- The object and the line after a sequence of calls, each made when the one before it has
returned; `none` when one of them never returns. -/
def calls (s : RotaryValve) (out : BufferedSerial) : List Op → Option (RotaryValve × BufferedSerial)
  | [] => some (s, out)
  | op :: ops =>
    match call s out op with
    | none => none
    | some (s, out) => calls s out ops

/-- The call is one of the two commands `Move`, `Home`. -/
def Op.isCommand : Op → Bool
  | .Move _ => true
  | .Home => true
  | _ => false

/-- The most recent `Move` or `Home` call of a sequence of calls, if there is one. -/
def lastCommand : List Op → Option Op
  | [] => none
  | op :: ops =>
    match lastCommand ops with
    | some c => some c
    | none => if op.isCommand then some op else none

end RotaryValve

/-! ## Concrete objects and lines used as examples -/

/-- Storage of an object before its constructor runs, all members zero. -/
def rawZero : RotaryValve :=
  { tx := 0, rx := 0, baudrate := 0, start := 0, address := 0, func := 0, param := 0,
    action := .STATUS_VALVE, end_ := 0, checksum := 0,
    buff := List.replicate 8 0, message := List.replicate 8 0, isHome := false }

/-- A freshly constructed valve at address `0x00` whose unassigned members are all zero. -/
def valve0 : RotaryValve :=
  RotaryValve.new rawZero 1 2 0x00 9600

/-- A line on which the device answers with one stray byte `0x00` before its 8-byte reply
`CC AA BB CC DD EE FF 01`. -/
def lineStray : BufferedSerial :=
  { written := [], pending := [0x00, 0xCC, 0xAA, 0xBB, 0xCC, 0xDD, 0xEE, 0xFF, 0x01] }

/-- A line on which the device answers at once, with the error byte `0x02` in its reply. -/
def lineError : BufferedSerial :=
  { written := [], pending := [0xCC, 0x00, 0x02, 0x00, 0x00, 0xDD, 0xAB, 0x01] }

/-- A valve whose user-visible state differs from `valve0` in every member that `buildPacket`
overwrites, and that is homed. -/
def valve1 : RotaryValve :=
  { valve0 with start := 0x01, end_ := 0x02, checksum := 0x1234,
                buff := [1, 2, 3, 4, 5, 6, 7, 8], message := [8, 7, 6, 5, 4, 3, 2, 1],
                isHome := true }

/-- A valve at address `0x12` that holds the command `func = 0x44`, `param = 0xABCD`. -/
def valve2 : RotaryValve :=
  { valve1 with address := 0x12, func := 0x44, param := 0xABCD }

/-- A valve at address `0x00` that holds the command `func = 0x44`, `param = 0xFFFF`. -/
def valveWrap : RotaryValve :=
  { valve0 with func := 0x44, param := 0xFFFF }

/-- The frame of `Move(FIVE)` at address `0x00`. -/
def frameMoveFive : List Nat := [0xCC, 0x00, 0x44, 0x05, 0x00, 0xDD, 0xF2, 0x01]

/-- The frame of `Home()` at address `0x00`. -/
def frameHome : List Nat := [0xCC, 0x00, 0x45, 0x00, 0x00, 0xDD, 0xEE, 0x01]

/-- The valve `valve1` after `Move(FIVE)` on the line `lineStray`. -/
def valve1Moved : RotaryValve :=
  { valve1 with start := 0xCC, func := 0x44, param := 0x0005, end_ := 0xDD, checksum := 0x01F2,
                buff := frameMoveFive,
                message := [0xCC, 0xAA, 0xBB, 0xCC, 0xDD, 0xEE, 0xFF, 0x01],
                isHome := false }

/-- The line `lineStray` after `Move(FIVE)` of a valve at address `0x00`. -/
def lineStrayMoved : BufferedSerial :=
  { written := [frameMoveFive], pending := [] }

/-- The valve `valve0` after `Home()` on the line `lineError`. -/
def valve0Homed : RotaryValve :=
  { valve0 with start := 0xCC, func := 0x45, param := 0x0000, end_ := 0xDD, checksum := 0x01EE,
                buff := frameHome,
                message := [0xCC, 0x00, 0x02, 0x00, 0x00, 0xDD, 0xAB, 0x01],
                isHome := true }

/-- The line `lineError` after `Home()` of a valve at address `0x00`. -/
def lineErrorHomed : BufferedSerial :=
  { written := [frameHome], pending := [] }

/-- A line on which the device answers two commands, each with an 8-byte reply. -/
def lineTwice : BufferedSerial :=
  { written := [],
    pending := [0xCC, 0x00, 0x00, 0x00, 0x00, 0xDD, 0xA9, 0x01,
                0xCC, 0x00, 0x00, 0x00, 0x00, 0xDD, 0xA9, 0x01] }

/-- A sequence of calls whose most recent command is `Home`. -/
def callsHome : List RotaryValve.Op :=
  [.Move Position.FIVE, .getBuff, .Home, .Verify, .buildPacket, .getMessage]

/-- Storage of an object before its constructor runs that happens to hold a wrapped command
and `isHome = true`. -/
def rawJunk : RotaryValve :=
  { valve2 with param := 0xFFFF, isHome := true }

/-- The valve constructed in the storage `rawJunk` with address `0x00`, after the calls
`callsHome` on the line `lineTwice`. -/
def valveCalled : RotaryValve :=
  { valve1 with start := 0xCC, func := 0x45, param := 0x0000, end_ := 0xDD, checksum := 0x01EE,
                buff := frameHome,
                message := [0xCC, 0x00, 0x00, 0x00, 0x00, 0xDD, 0xA9, 0x01],
                isHome := true }

/-- The line `lineTwice` after the calls `callsHome` of a valve at address `0x00`. -/
def lineTwiceCalled : BufferedSerial :=
  { written := [frameMoveFive, frameHome], pending := [] }

/-! ## Bytes of a 16-bit value -/

/-- Masking with `0xFF` keeps the value modulo 256. -/
theorem and_low_byte (x : Nat) : x &&& 0xFF = x % 256 :=
  Nat.and_pow_two_sub_one_eq_mod x 8

/-- Masking with `0xFF00` and shifting right by 8 gives the second byte of the value. -/
theorem and_high_byte (x : Nat) : (x &&& 0xFF00) >>> 8 = x / 256 % 256 := by
  apply Nat.eq_of_testBit_eq
  intro j
  have hdiv : x / 256 = x >>> 8 := by rw [Nat.shiftRight_eq_div_pow]
  have hpow : (256 : Nat) = 2 ^ 8 := by norm_num
  have hmask : (0xFF00 : Nat).testBit (8 + j) = decide (j < 8) := by
    rw [← Nat.testBit_shiftRight]
    exact Nat.testBit_two_pow_sub_one 8 j
  rw [Nat.testBit_shiftRight, Nat.testBit_and, hmask, hdiv, hpow, Nat.testBit_mod_two_pow,
    Nat.testBit_shiftRight, Bool.and_comm]

/-- The low byte of a value, as `buildPacket` extracts it into a `uint8_t`. -/
theorem low_byte_eq (x : Nat) : (x &&& 0xFF) % 256 = x % 256 := by
  rw [and_low_byte, Nat.mod_mod]

/-- The high byte of a 16-bit value, as `buildPacket` extracts it into a `uint8_t`. -/
theorem high_byte_eq (x : Nat) (hx : x < 65536) : ((x &&& 0xFF00) >>> 8) % 256 = x / 256 := by
  rw [and_high_byte, Nat.mod_mod]
  exact Nat.mod_eq_of_lt (by omega)

/-! ## Reads into `message` -/

/-- A one-byte read into `message[0]`. -/
theorem store_zero_one (m : List Nat) (b : Nat) : store m 0 [b] = b :: m.drop 1 := by
  simp [store]

/-- A seven-byte read into `message[1..7]` of an 8-byte array. -/
theorem store_one_seven (m bytes : List Nat) (b : Nat) (hm : m.length = 8)
    (hb : bytes.length = 7) : store (b :: m.drop 1) 1 bytes = b :: bytes := by
  simp [store, hb, hm]

/-- A read of 7 bytes from a stream that starts with 7 bytes `r`. -/
theorem read_seven (r tail : List Nat) (hr : r.length = 7) :
    BufferedSerial.read ⟨[], r ++ tail⟩ 7 = some (r, ⟨[], tail⟩) := by
  simp [BufferedSerial.read, hr, List.take_append_of_le_length, List.drop_append_of_le_length]

namespace RotaryValve

/-! ## The frame encoder -/

/-- The frame `buildPacket` stores in `buff`, byte by byte. -/
theorem buildPacket_buff_eq (s : RotaryValve) (hp : s.param < 65536) :
    s.buildPacket.buff =
      [0xCC, s.address, s.func, s.param % 256, s.param / 256, 0xDD,
        (0xCC + s.address + s.func + s.param + 0xDD) % 65536 % 256,
        (0xCC + s.address + s.func + s.param + 0xDD) % 65536 / 256] := by
  have hc : (0xCC + s.address + s.func + s.param + 0xDD) % 65536 < 65536 :=
    Nat.mod_lt _ (by norm_num)
  simp only [buildPacket, low_byte_eq, high_byte_eq _ hp, high_byte_eq _ hc]

/-- The checksum `buildPacket` stores. -/
theorem buildPacket_checksum_eq (s : RotaryValve) :
    s.buildPacket.checksum = (0xCC + s.address + s.func + s.param + 0xDD) % 65536 := rfl

/-! ## Verification and the response capture loop -/


/-- One round of the loop on a byte other than `0xCC`: the byte lands in `message[0]` and the
loop goes on. -/
theorem listen_cons_ne (m rest : List Nat) (b : Nat) (hb : b ≠ 0xCC) :
    sendPacket.listen m (b :: rest) = sendPacket.listen (b :: m.drop 1) rest := by
  simp only [sendPacket.listen, store_zero_one, List.getD_cons_zero, if_neg hb]

/-- The round of the loop that reads the start byte `0xCC` ends the loop with the start byte
and the 7 bytes that follow it. -/
theorem listen_start (m r tail : List Nat) (hm : m.length = 8) (hr : r.length = 7) :
    sendPacket.listen m (0xCC :: (r ++ tail)) = some (0xCC :: r, tail) := by
  simp only [sendPacket.listen, store_zero_one, List.getD_cons_zero, if_true, read_seven r tail hr,
    store_one_seven m r 0xCC hm hr]

/-- The loop discards a run of bytes that holds no `0xCC`. -/
theorem listen_skip (pre rest : List Nat) (hpre : ∀ b ∈ pre, b ≠ 0xCC) :
    ∀ m : List Nat, m.length = 8 →
      ∃ m' : List Nat, m'.length = 8 ∧
        sendPacket.listen m (pre ++ rest) = sendPacket.listen m' rest := by
  induction pre with
  | nil => intro m hm; exact ⟨m, hm, rfl⟩
  | cons b pre ih =>
    intro m hm
    have hb : b ≠ 0xCC := hpre b (List.mem_cons_self b pre)
    have hm1 : (b :: m.drop 1).length = 8 := by simp [hm]
    obtain ⟨m', hm', h⟩ := ih (fun c hc => hpre c (List.mem_cons_of_mem b hc)) (b :: m.drop 1) hm1
    exact ⟨m', hm', by rw [List.cons_append, listen_cons_ne m _ b hb, h]⟩

/-- The object `Verify` leaves: the checksum is recomputed when it differed from the sum. -/
theorem Verify_snd_eq (s : RotaryValve) :
    s.Verify.2 =
      if s.checksum ≠ s.start + s.address + s.func + s.param + s.end_ then
        { s with checksum := (s.start + s.address + s.func + s.param + s.end_) % 65536 }
      else s := by
  by_cases h : s.checksum = s.start + s.address + s.func + s.param + s.end_
  · simp [Verify, h]
  · simp only [Verify, ne_eq, h, not_false_eq_true, if_true]
    split_ifs <;> rfl

/-- The call `Verify` changes no member but `checksum`. -/
theorem Verify_snd (s : RotaryValve) :
    s.Verify.2 = { s with checksum := s.Verify.2.checksum } := by
  rw [Verify_snd_eq]
  split_ifs <;> rfl

/-- The call `Verify` returns `true` exactly when the stored checksum already was the `int` sum
or that sum fits 16 bits. -/
theorem Verify_fst_iff (s : RotaryValve) :
    s.Verify.1 = true ↔
      (s.checksum = s.start + s.address + s.func + s.param + s.end_ ∨
        s.start + s.address + s.func + s.param + s.end_ < 65536) := by
  unfold Verify
  dsimp only
  split_ifs with h1 h2 h2 <;> simp_all

/-- The two paths of `sendPacket`. -/
theorem sendPacket_eq (s : RotaryValve) (out : BufferedSerial) :
    s.sendPacket out =
      if s.Verify.1 = true then
        (sendPacket.listen (List.replicate 8 0) out.pending).map fun r =>
          ({ s.Verify.2 with message := r.1 },
            { written := out.written ++ [s.Verify.2.buff.take 8], pending := r.2 })
      else some (s.Verify.2, out) := by
  unfold sendPacket
  rcases s.Verify with ⟨ok, s1⟩
  cases ok
  · simp
  · simp only [if_true, BufferedSerial.write]
    cases sendPacket.listen (List.replicate 8 0) out.pending <;> rfl

/-- When `sendPacket` returns, the object is the old one up to `checksum` and `message`. -/
theorem sendPacket_frame (s s' : RotaryValve) (out out' : BufferedSerial)
    (h : s.sendPacket out = some (s', out')) :
    s' = { s with checksum := s'.checksum, message := s'.message } := by
  rw [sendPacket_eq] at h
  split at h
  · simp only [Option.map_eq_some'] at h
    obtain ⟨r, -, hr⟩ := h
    cases hr
    rw [Verify_snd s]
  · cases h
    rw [Verify_snd s]

/-! ## The commands -/

/-- `Move` is `buildPacket` on the object with the move command, then `sendPacket`, then the
assignment of `isHome`. -/
theorem Move_eq (s : RotaryValve) (out : BufferedSerial) (p : Position) :
    s.Move out p =
      (sendPacket (buildPacket { s with func := 0x44, param := p.val }) out).map
        fun r => ({ r.1 with isHome := false }, r.2) := by
  simp only [Move]
  split <;> simp [*]

/-- `Home` is `buildPacket` on the object with the home command, then `sendPacket`, then the
assignment of `isHome`. -/
theorem Home_eq (s : RotaryValve) (out : BufferedSerial) :
    s.Home out =
      (sendPacket (buildPacket { s with func := 0x45, param := 0x00 }) out).map
        fun r => ({ r.1 with isHome := true }, r.2) := by
  simp only [Home]
  split <;> simp [*]

/-- C1: for every address in [0,255], func in [0,255] and param in [0,65535], after
`buildPacket` the frame has 8 bytes and its two checksum bytes, reassembled little-endian as
`buff[6] + 256 * buff[7]`, equal `(0xCC + address + func + param + 0xDD) mod 65536`. -/
theorem buildPacket_checksum_bytes (s : RotaryValve)
    (_ha : s.address < 256) (_hf : s.func < 256) (hp : s.param < 65536) :
    s.buildPacket.buff.length = 8 ∧
    s.buildPacket.buff.getD 6 0 + 256 * s.buildPacket.buff.getD 7 0 =
      (0xCC + s.address + s.func + s.param + 0xDD) % 65536 := by
  rw [buildPacket_buff_eq s hp]
  refine ⟨rfl, ?_⟩
  simp only [List.getD_cons_succ, List.getD_cons_zero]
  omega

/-- The checksum bytes of the frame of `valve0`. -/
theorem buildPacket_checksum_bytes_witness :
    valve0.address < 256 ∧ valve0.func < 256 ∧ valve0.param < 65536 ∧
    valve0.buildPacket.buff.length = 8 ∧
    valve0.buildPacket.buff.getD 6 0 + 256 * valve0.buildPacket.buff.getD 7 0 =
      (0xCC + valve0.address + valve0.func + valve0.param + 0xDD) % 65536 :=
  ⟨by decide, by decide, by decide,
    buildPacket_checksum_bytes valve0 (by decide) (by decide) (by decide)⟩

/-- C2: for every address, func and param (of their 8, 8 and 16 bits), `buildPacket` produces
exactly the 8-byte frame `[0xCC, address, func, param mod 256, param div 256, 0xDD,
sum mod 256, sum div 256]`, where `sum` is the stored 16-bit checksum. -/
theorem buildPacket_frame_layout (s : RotaryValve)
    (_ha : s.address < 256) (_hf : s.func < 256) (hp : s.param < 65536) :
    s.buildPacket.buff =
      [0xCC, s.address, s.func, s.param % 256, s.param / 256, 0xDD,
        s.buildPacket.checksum % 256, s.buildPacket.checksum / 256] := by
  rw [buildPacket_buff_eq s hp, buildPacket_checksum_eq]

/-- The layout of the frame of `valve2`. -/
theorem buildPacket_frame_layout_witness :
    valve2.address < 256 ∧ valve2.func < 256 ∧ valve2.param < 65536 ∧
    valve2.buildPacket.buff =
      [0xCC, valve2.address, valve2.func, valve2.param % 256, valve2.param / 256, 0xDD,
        valve2.buildPacket.checksum % 256, valve2.buildPacket.checksum / 256] :=
  ⟨by decide, by decide, by decide,
    buildPacket_frame_layout valve2 (by decide) (by decide) (by decide)⟩

/-- C9: for every param in [0,65535] (and every address and func), after `buildPacket` the
value `buff[3] + 256 * buff[4]` decoded from the two parameter bytes of the frame is `param`. -/
theorem buildPacket_param_roundtrip (s : RotaryValve) (hp : s.param < 65536) :
    s.buildPacket.buff.getD 3 0 + 256 * s.buildPacket.buff.getD 4 0 = s.param := by
  rw [buildPacket_buff_eq s hp]
  simp only [List.getD_cons_succ, List.getD_cons_zero]
  omega

/-- The parameter `0xABCD` of `valve2` is read back from its frame. -/
theorem buildPacket_param_roundtrip_witness :
    valve2.param < 65536 ∧
    valve2.buildPacket.buff.getD 3 0 + 256 * valve2.buildPacket.buff.getD 4 0 = valve2.param :=
  ⟨by decide, buildPacket_param_roundtrip valve2 (by decide)⟩

/-- C10: the frame is a function of address, func and param alone: two objects that agree on
these three members have the same `buff` and the same `checksum` after `buildPacket`, whatever
their other members were; and `buildPacket` called twice in a row leaves the object that one
call leaves. -/
theorem buildPacket_pure (s t : RotaryValve)
    (ha : s.address = t.address) (hf : s.func = t.func) (hp : s.param = t.param) :
    s.buildPacket.buff = t.buildPacket.buff ∧
    s.buildPacket.checksum = t.buildPacket.checksum ∧
    s.buildPacket.buildPacket = s.buildPacket := by
  refine ⟨?_, ?_, rfl⟩
  · simp only [buildPacket, ha, hf, hp]
  · simp only [buildPacket, ha, hf, hp]

/-- The valves `valve0` and `valve1`, equal in address, func and param only, build the same
frame. -/
theorem buildPacket_pure_witness :
    valve0.buildPacket.buff = valve1.buildPacket.buff ∧
    valve0.buildPacket.checksum = valve1.buildPacket.checksum ∧
    valve0.buildPacket.buildPacket = valve0.buildPacket :=
  buildPacket_pure valve0 valve1 rfl rfl rfl

/-- The value of a `Position` is one of 1..12. -/
theorem Position_val_range (p : Position) : 1 ≤ p.val ∧ p.val ≤ 12 := by
  cases p <;> decide

/-- Every number in 1..12 is the value of a `Position`. -/
theorem Position_val_surj (n : Nat) (h1 : 1 ≤ n) (h12 : n ≤ 12) : ∃ p : Position, p.val = n := by
  have hn : n = 1 ∨ n = 2 ∨ n = 3 ∨ n = 4 ∨ n = 5 ∨ n = 6 ∨ n = 7 ∨ n = 8 ∨ n = 9 ∨ n = 10 ∨
      n = 11 ∨ n = 12 := by omega
  rcases hn with h | h | h | h | h | h | h | h | h | h | h | h <;> subst h
  exacts [⟨.ONE, rfl⟩, ⟨.TWO, rfl⟩, ⟨.THREE, rfl⟩, ⟨.FOUR, rfl⟩, ⟨.FIVE, rfl⟩, ⟨.SIX, rfl⟩,
    ⟨.SEVEN, rfl⟩, ⟨.EIGHT, rfl⟩, ⟨.NINE, rfl⟩, ⟨.TEN, rfl⟩, ⟨.ELEVEN, rfl⟩, ⟨.TWELVE, rfl⟩]

/-- When `sendPacket` returns, it has changed no member but `checksum` and `message`. -/
theorem sendPacket_members (s s' : RotaryValve) (out out' : BufferedSerial)
    (h : s.sendPacket out = some (s', out')) :
    s'.tx = s.tx ∧ s'.rx = s.rx ∧ s'.baudrate = s.baudrate ∧ s'.start = s.start ∧
    s'.address = s.address ∧ s'.func = s.func ∧ s'.param = s.param ∧ s'.action = s.action ∧
    s'.end_ = s.end_ ∧ s'.buff = s.buff ∧ s'.isHome = s.isHome := by
  have hf := sendPacket_frame s s' out out' h
  rw [hf]
  exact ⟨rfl, rfl, rfl, rfl, rfl, rfl, rfl, rfl, rfl, rfl, rfl⟩

/-- When `Move` returns, `buff` is the frame `buildPacket` built for the move command and
`isHome` is `false`. -/
theorem Move_members (s s' : RotaryValve) (out out' : BufferedSerial) (p : Position)
    (h : s.Move out p = some (s', out')) :
    s'.buff = (buildPacket { s with func := 0x44, param := p.val }).buff ∧
    s'.isHome = false := by
  rw [Move_eq, Option.map_eq_some'] at h
  obtain ⟨r, hr, hs⟩ := h
  cases hs
  exact ⟨(sendPacket_members _ r.1 out r.2 hr).2.2.2.2.2.2.2.2.2.1, rfl⟩

/-- When `Home` returns, `buff` is the frame `buildPacket` built for the home command and
`isHome` is `true`. -/
theorem Home_members (s s' : RotaryValve) (out out' : BufferedSerial)
    (h : s.Home out = some (s', out')) :
    s'.buff = (buildPacket { s with func := 0x45, param := 0x00 }).buff ∧
    s'.isHome = true := by
  rw [Home_eq, Option.map_eq_some'] at h
  obtain ⟨r, hr, hs⟩ := h
  cases hs
  exact ⟨(sendPacket_members _ r.1 out r.2 hr).2.2.2.2.2.2.2.2.2.1, rfl⟩

/-- When the frame holds no wrapped checksum, i.e. `0xCC + address + func + param + 0xDD` is
below `65536`, `Verify` returns `true` right after `buildPacket`, and only then. -/
theorem Verify_buildPacket_iff (s : RotaryValve) :
    s.buildPacket.Verify.1 = true ↔ 0xCC + s.address + s.func + s.param + 0xDD < 65536 := by
  rw [Verify_fst_iff]
  simp only [buildPacket]
  omega

/-- C3, as the code has it: for address `0x00`, `Move(FIVE)` builds the frame
`CC 00 44 05 00 DD F2 01`: the checksum `0xCC + 0x00 + 0x44 + 0x05 + 0xDD` is `0x01F2`, so
`buff[6] = 0xF2` and `buff[7] = 0x01`; this is the frame `buildPacket` leaves in `buff` inside
`Move`, and the frame `buff` holds whenever `Move` returns. -/
theorem Move_FIVE_frame (s : RotaryValve) (out : BufferedSerial) (ha : s.address = 0x00) :
    (buildPacket { s with func := 0x44, param := Position.FIVE.val }).buff
      = [0xCC, 0x00, 0x44, 0x05, 0x00, 0xDD, 0xF2, 0x01] ∧
    (buildPacket { s with func := 0x44, param := Position.FIVE.val }).checksum = 0x01F2 ∧
    ∀ s' out', s.Move out Position.FIVE = some (s', out') →
      s'.buff = [0xCC, 0x00, 0x44, 0x05, 0x00, 0xDD, 0xF2, 0x01] := by
  have hb : (buildPacket { s with func := 0x44, param := Position.FIVE.val }).buff
      = [0xCC, 0x00, 0x44, 0x05, 0x00, 0xDD, 0xF2, 0x01] := by
    rw [buildPacket_buff_eq _ (show Position.FIVE.val < 65536 by decide)]
    simp only [ha, Position.val]
  refine ⟨hb, ?_, ?_⟩
  · rw [buildPacket_checksum_eq]
    simp only [ha, Position.val]
  · intro s' out' h
    rw [(Move_members s s' out out' Position.FIVE h).1, hb]

/-- The frame of `Move(FIVE)` on `valve0`. -/
theorem Move_FIVE_frame_witness :
    valve0.address = 0x00 ∧
    (buildPacket { valve0 with func := 0x44, param := Position.FIVE.val }).buff
      = [0xCC, 0x00, 0x44, 0x05, 0x00, 0xDD, 0xF2, 0x01] :=
  ⟨rfl, (Move_FIVE_frame valve0 lineError rfl).1⟩

/-- C3, as the spec has it, fails: at address `0x00` the checksum of `Move(FIVE)` is not
`0x01A0`, and the frame `Move(FIVE)` builds and leaves in `buff` is not
`CC 00 44 05 00 DD A0 01`. -/
theorem Move_FIVE_frame_not_A0 :
    valve1.address = 0x00 ∧
    0xCC + 0x00 + 0x44 + 0x05 + 0xDD ≠ 0x01A0 ∧
    (buildPacket { valve1 with func := 0x44, param := Position.FIVE.val }).buff
      ≠ [0xCC, 0x00, 0x44, 0x05, 0x00, 0xDD, 0xA0, 0x01] ∧
    valve1.Move lineStray Position.FIVE = some (valve1Moved, lineStrayMoved) ∧
    valve1Moved.buff ≠ [0xCC, 0x00, 0x44, 0x05, 0x00, 0xDD, 0xA0, 0x01] := by
  decide

/-- C4, as the code has it: for address `0x00`, `Home()` builds the frame
`CC 00 45 00 00 DD EE 01`: `func = 0x45`, `param = 0x0000` and the checksum
`0xCC + 0x00 + 0x45 + 0x00 + 0xDD` is `0x01EE`; this is the frame `buildPacket` leaves in
`buff` inside `Home`, and the frame `buff` holds whenever `Home` returns. -/
theorem Home_frame (s : RotaryValve) (out : BufferedSerial) (ha : s.address = 0x00) :
    (buildPacket { s with func := 0x45, param := 0x00 }).buff
      = [0xCC, 0x00, 0x45, 0x00, 0x00, 0xDD, 0xEE, 0x01] ∧
    (buildPacket { s with func := 0x45, param := 0x00 }).func = 0x45 ∧
    (buildPacket { s with func := 0x45, param := 0x00 }).param = 0x0000 ∧
    (buildPacket { s with func := 0x45, param := 0x00 }).checksum = 0x01EE ∧
    ∀ s' out', s.Home out = some (s', out') →
      s'.buff = [0xCC, 0x00, 0x45, 0x00, 0x00, 0xDD, 0xEE, 0x01] := by
  have hb : (buildPacket { s with func := 0x45, param := 0x00 }).buff
      = [0xCC, 0x00, 0x45, 0x00, 0x00, 0xDD, 0xEE, 0x01] := by
    rw [buildPacket_buff_eq _ (show 0x00 < 65536 by decide)]
    simp only [ha]
  refine ⟨hb, rfl, rfl, ?_, ?_⟩
  · rw [buildPacket_checksum_eq]
    simp only [ha]
  · intro s' out' h
    rw [(Home_members s s' out out' h).1, hb]

/-- The frame of `Home()` on `valve1`. -/
theorem Home_frame_witness :
    valve1.address = 0x00 ∧
    (buildPacket { valve1 with func := 0x45, param := 0x00 }).buff
      = [0xCC, 0x00, 0x45, 0x00, 0x00, 0xDD, 0xEE, 0x01] :=
  ⟨rfl, (Home_frame valve1 lineStray rfl).1⟩

/-- C4, as the spec has it, fails: at address `0x00` the checksum of `Home()` is not `0x01A1`,
and the frame `Home()` builds and leaves in `buff` is not `CC 00 45 00 00 DD A1 01`. -/
theorem Home_frame_not_A1 :
    valve0.address = 0x00 ∧
    0xCC + 0x00 + 0x45 + 0x00 + 0xDD ≠ 0x01A1 ∧
    (buildPacket { valve0 with func := 0x45, param := 0x00 }).buff
      ≠ [0xCC, 0x00, 0x45, 0x00, 0x00, 0xDD, 0xA1, 0x01] ∧
    valve0.Home lineError = some (valve0Homed, lineErrorHomed) ∧
    valve0Homed.buff ≠ [0xCC, 0x00, 0x45, 0x00, 0x00, 0xDD, 0xA1, 0x01] := by
  decide

/-- C5 at its failing input: the valve at address `0x00` with `func = 0x44` and
`param = 0xFFFF` is well formed, `buildPacket` stores the wrapped checksum
`(0xCC + 0x00 + 0x44 + 0xFFFF + 0xDD) mod 65536 = 0x01EC`, and `Verify`, called right after
`buildPacket`, returns `false`; `sendPacket` then writes nothing and reads nothing. -/
theorem Verify_false_after_buildPacket :
    valveWrap.WF ∧ valveWrap.buildPacket.WF ∧
    valveWrap.buildPacket.checksum = 0x01EC ∧
    valveWrap.buildPacket.Verify.1 = false ∧
    valveWrap.buildPacket.sendPacket lineError = some (valveWrap.buildPacket, lineError) := by
  decide

/-- C6: for every stream `pre ++ [0xCC] ++ r ++ tail` in which `pre` holds no byte `0xCC` and
`r` has exactly 7 bytes, a `sendPacket` whose `Verify` passes returns, with
`message = [0xCC] ++ r` and the stream consumed up to `tail`, whatever `message` held before
the call. -/
theorem sendPacket_realigns (s : RotaryValve) (out : BufferedSerial) (pre r tail : List Nat)
    (hv : s.Verify.1 = true) (hpre : ∀ b ∈ pre, b ≠ 0xCC) (hr : r.length = 7)
    (hin : out.pending = pre ++ [0xCC] ++ r ++ tail) :
    ∃ s' out', s.sendPacket out = some (s', out') ∧
      s'.message = [0xCC] ++ r ∧ out'.pending = tail := by
  obtain ⟨m', hm', hskip⟩ :=
    listen_skip pre (0xCC :: (r ++ tail)) hpre (List.replicate 8 0) (List.length_replicate 8 0)
  have hl : sendPacket.listen (List.replicate 8 0) out.pending = some (0xCC :: r, tail) := by
    rw [hin, List.append_assoc, List.append_assoc, List.singleton_append, hskip,
      listen_start m' r tail hm' hr]
  rw [sendPacket_eq, if_pos hv, hl]
  exact ⟨_, _, rfl, rfl, rfl⟩

/-- One stray leading `0x00` on the line is discarded. -/
theorem sendPacket_realigns_witness :
    valve1.buildPacket.Verify.1 = true ∧
    ∃ s' out', valve1.buildPacket.sendPacket lineStray = some (s', out') ∧
      s'.message = [0xCC] ++ [0xAA, 0xBB, 0xCC, 0xDD, 0xEE, 0xFF, 0x01] ∧ out'.pending = [] :=
  ⟨by decide,
    sendPacket_realigns valve1.buildPacket lineStray [0x00]
      [0xAA, 0xBB, 0xCC, 0xDD, 0xEE, 0xFF, 0x01] [] (by decide) (by decide) rfl rfl⟩

/-- C7: for every prior state, every line and every position, whenever `Move` returns,
`isHome` is `false`. -/
theorem Move_isHome_false (s s' : RotaryValve) (out out' : BufferedSerial) (p : Position)
    (h : s.Move out p = some (s', out')) : s'.isHome = false :=
  (Move_members s s' out out' p h).2

/-- A homed valve is not homed after a `Move(FIVE)` that returns. -/
theorem Move_isHome_false_witness :
    valve1.isHome = true ∧
    valve1.Move lineStray Position.FIVE = some (valve1Moved, lineStrayMoved) ∧
    valve1Moved.isHome = false :=
  ⟨rfl, by decide,
    Move_isHome_false valve1 valve1Moved lineStray lineStrayMoved Position.FIVE (by decide)⟩

/-- C8: for every prior state and every reply of the device, whenever `Home` returns, `isHome`
is `true`. -/
theorem Home_isHome_true (s s' : RotaryValve) (out out' : BufferedSerial)
    (h : s.Home out = some (s', out')) : s'.isHome = true :=
  (Home_members s s' out out' h).2

/-- A valve is homed after a `Home()` that returns, also on a reply with an error byte. -/
theorem Home_isHome_true_witness :
    valve0.isHome = false ∧
    valve0.Home lineError = some (valve0Homed, lineErrorHomed) ∧
    valve0Homed.isHome = true :=
  ⟨rfl, by decide, Home_isHome_true valve0 valve0Homed lineError lineErrorHomed (by decide)⟩

/-! ## The accessors, the repair of the checksum and the strength of the checksum -/

/-- The 8 bytes an accessor copies out of an 8-byte array are the array. -/
theorem copy_eight (l : List Nat) (hl : l.length = 8) :
    ((List.range 8).map fun i => l.getD i 0) = l := by
  match l, hl with
  | [_, _, _, _, _, _, _, _], _ => rfl

/-- C12: for every state (of 8-byte arrays `buff` and `message`), `getBuff` returns 8 bytes
equal index by index to `buff` and `getMessage` returns 8 bytes equal index by index to
`message`, and neither call changes a member of the valve or the line. -/
theorem getBuff_getMessage_snapshot (s : RotaryValve) (out : BufferedSerial)
    (hb : s.buff.length = 8) (hm : s.message.length = 8) :
    s.getBuff.length = 8 ∧ (∀ i : Fin 8, s.getBuff.getD i.val 0 = s.buff.getD i.val 0) ∧
    s.getBuff = s.buff ∧
    s.getMessage.length = 8 ∧
    (∀ i : Fin 8, s.getMessage.getD i.val 0 = s.message.getD i.val 0) ∧
    s.getMessage = s.message ∧
    call s out Op.getBuff = some (s, out) ∧ call s out Op.getMessage = some (s, out) := by
  have h1 : s.getBuff = s.buff := copy_eight s.buff hb
  have h2 : s.getMessage = s.message := copy_eight s.message hm
  refine ⟨by rw [h1, hb], fun i => by rw [h1], h1, by rw [h2, hm], fun i => by rw [h2], h2,
    rfl, rfl⟩

/-- The accessors on `valve1`, whose frame is `1..8` and whose response is `8..1`. -/
theorem getBuff_getMessage_snapshot_witness :
    valve1.buff.length = 8 ∧ valve1.message.length = 8 ∧
    valve1.getBuff = [1, 2, 3, 4, 5, 6, 7, 8] ∧ valve1.getMessage = [8, 7, 6, 5, 4, 3, 2, 1] :=
  ⟨rfl, rfl, (getBuff_getMessage_snapshot valve1 lineError rfl rfl).2.2.1,
    (getBuff_getMessage_snapshot valve1 lineError rfl rfl).2.2.2.2.2.1⟩

/-- C14: for every state (of a 16-bit `checksum`), the object after `Verify` is the object
before it with `checksum` set to `(start + address + func + param + end) mod 65536`: `start`,
`address`, `func`, `param`, `end`, `buff`, `message` and `isHome` (and `tx`, `rx`, `baudrate`,
`action`) are unchanged, so the checksum bytes `buff[6]`, `buff[7]` are not corrected; and
nothing at all changes exactly when the stored checksum already was that value. -/
theorem Verify_repairs_checksum_only (s : RotaryValve) (hc : s.checksum < 65536) :
    s.Verify.2 =
      { s with checksum := (s.start + s.address + s.func + s.param + s.end_) % 65536 } ∧
    s.Verify.2.checksum = (s.start + s.address + s.func + s.param + s.end_) % 65536 ∧
    s.Verify.2.start = s.start ∧ s.Verify.2.address = s.address ∧ s.Verify.2.func = s.func ∧
    s.Verify.2.param = s.param ∧ s.Verify.2.end_ = s.end_ ∧ s.Verify.2.buff = s.buff ∧
    s.Verify.2.message = s.message ∧ s.Verify.2.isHome = s.isHome ∧
    s.Verify.2.buff.getD 6 0 = s.buff.getD 6 0 ∧ s.Verify.2.buff.getD 7 0 = s.buff.getD 7 0 ∧
    (s.Verify.2 = s ↔
      s.checksum = (s.start + s.address + s.func + s.param + s.end_) % 65536) := by
  have h : s.Verify.2 =
      { s with checksum := (s.start + s.address + s.func + s.param + s.end_) % 65536 } := by
    rw [Verify_snd_eq]
    split_ifs with hne
    · rfl
    · have heq : s.checksum = s.start + s.address + s.func + s.param + s.end_ :=
        not_not.mp hne
      have hmod : (s.start + s.address + s.func + s.param + s.end_) % 65536 = s.checksum := by
        rw [← heq]
        exact Nat.mod_eq_of_lt hc
      rw [hmod]
  refine ⟨h, ?_, ?_, ?_, ?_, ?_, ?_, ?_, ?_, ?_, ?_, ?_, ?_⟩
  any_goals rw [h]
  constructor
  · intro he
    exact (congrArg RotaryValve.checksum he).symm
  · intro he
    rw [← he]

/-- The call `Verify` on `valve1`, whose checksum `0x1234` and frame bytes `7`, `8` both
disagree with the sum `3`: the checksum is repaired and the frame is left as it was. -/
theorem Verify_repairs_checksum_only_witness :
    valve1.checksum < 65536 ∧ valve1.Verify.2.checksum = 3 ∧
    valve1.Verify.2.buff = [1, 2, 3, 4, 5, 6, 7, 8] :=
  ⟨by decide, (Verify_repairs_checksum_only valve1 (by decide)).2.1,
    (Verify_repairs_checksum_only valve1 (by decide)).2.2.2.2.2.2.2.1⟩

/-- C16: two triples (address, func, param) within range that differ in exactly one of the
three fields get different 16-bit checksums from `buildPacket`, in the member `checksum` and
in the two checksum bytes of the frame. -/
theorem buildPacket_checksum_single_field (s t : RotaryValve)
    (hsa : s.address < 256) (hsf : s.func < 256) (hsp : s.param < 65536)
    (hta : t.address < 256) (htf : t.func < 256) (htp : t.param < 65536)
    (hd : (s.address ≠ t.address ∧ s.func = t.func ∧ s.param = t.param) ∨
          (s.address = t.address ∧ s.func ≠ t.func ∧ s.param = t.param) ∨
          (s.address = t.address ∧ s.func = t.func ∧ s.param ≠ t.param)) :
    s.buildPacket.checksum ≠ t.buildPacket.checksum ∧
    (s.buildPacket.buff.getD 6 0, s.buildPacket.buff.getD 7 0) ≠
      (t.buildPacket.buff.getD 6 0, t.buildPacket.buff.getD 7 0) := by
  have hne : (0xCC + s.address + s.func + s.param + 0xDD) % 65536 ≠
      (0xCC + t.address + t.func + t.param + 0xDD) % 65536 := by omega
  refine ⟨by rw [buildPacket_checksum_eq, buildPacket_checksum_eq]; exact hne, ?_⟩
  rw [buildPacket_buff_eq s hsp, buildPacket_buff_eq t htp]
  simp only [List.getD_cons_succ, List.getD_cons_zero, ne_eq, Prod.mk.injEq, not_and]
  omega

/-- The frames of `valve0` and of `valve2` with the address and the func of `valve0`, which
differ in the parameter alone. -/
theorem buildPacket_checksum_single_field_witness :
    valve0.buildPacket.checksum ≠
      ({ valve2 with address := 0x00, func := 0x00 } : RotaryValve).buildPacket.checksum :=
  (buildPacket_checksum_single_field valve0 { valve2 with address := 0x00, func := 0x00 }
    (by decide) (by decide) (by decide) (by decide) (by decide) (by decide)
    (Or.inr (Or.inr ⟨rfl, rfl, by decide⟩))).1

/-- C17: for every address and func in [0,255] and every param in [0,255], the checksum
`buildPacket` stores is the plain sum `buff[0] + buff[1] + buff[2] + buff[3] + buff[4] +
buff[5]` of the six frame bytes before it, which is `0xCC + address + func + param + 0xDD`
and is below `65536`: no wraparound occurs.  The checksum bytes of the frame hold the same
value. -/
theorem buildPacket_checksum_plain_sum (s : RotaryValve)
    (ha : s.address < 256) (hf : s.func < 256) (hp : s.param < 256) :
    s.buildPacket.checksum =
      s.buildPacket.buff.getD 0 0 + s.buildPacket.buff.getD 1 0 + s.buildPacket.buff.getD 2 0 +
        s.buildPacket.buff.getD 3 0 + s.buildPacket.buff.getD 4 0 +
        s.buildPacket.buff.getD 5 0 ∧
    s.buildPacket.checksum = 0xCC + s.address + s.func + s.param + 0xDD ∧
    0xCC + s.address + s.func + s.param + 0xDD < 65536 ∧
    s.buildPacket.buff.getD 6 0 + 256 * s.buildPacket.buff.getD 7 0 =
      s.buildPacket.buff.getD 0 0 + s.buildPacket.buff.getD 1 0 + s.buildPacket.buff.getD 2 0 +
        s.buildPacket.buff.getD 3 0 + s.buildPacket.buff.getD 4 0 +
        s.buildPacket.buff.getD 5 0 := by
  rw [buildPacket_buff_eq s (by omega), buildPacket_checksum_eq]
  simp only [List.getD_cons_succ, List.getD_cons_zero]
  omega

/-- The checksum of the frame of `valve1Moved`, a `Move(FIVE)` at address `0x00`. -/
theorem buildPacket_checksum_plain_sum_witness :
    valve1Moved.address < 256 ∧ valve1Moved.func < 256 ∧ valve1Moved.param < 256 ∧
    valve1Moved.buildPacket.checksum = 0xCC + 0x00 + 0x44 + 0x05 + 0x00 + 0xDD :=
  ⟨by decide, by decide, by decide,
    (buildPacket_checksum_plain_sum valve1Moved (by decide) (by decide) (by decide)).1⟩

/-! ## The operations on the line -/

/-- The traced loop returns what the loop returns. -/
theorem listenTraced_snd (l : List Nat) :
    ∀ m : List Nat, (sendPacket.listenTraced m l).2 = sendPacket.listen m l := by
  induction l with
  | nil => intro m; rfl
  | cons b rest ih =>
    intro m
    simp only [sendPacket.listenTraced, sendPacket.listen]
    split_ifs with h
    · cases BufferedSerial.read ⟨[], rest⟩ 7 <;> rfl
    · exact ih _

/-- The loop only reads. -/
theorem listenTraced_reads (l : List Nat) :
    ∀ m : List Nat, ∀ op ∈ (sendPacket.listenTraced m l).1, op.isRead = true := by
  induction l with
  | nil => intro m op hop; simp [sendPacket.listenTraced] at hop
  | cons b rest ih =>
    intro m op hop
    simp only [sendPacket.listenTraced] at hop
    split_ifs at hop with h
    · cases hr : BufferedSerial.read ⟨[], rest⟩ 7 with
      | none =>
        rw [hr] at hop
        simp only [List.mem_singleton] at hop
        rw [hop]; rfl
      | some r =>
        rw [hr] at hop
        simp only [List.mem_cons, List.mem_singleton, List.not_mem_nil, or_false] at hop
        rcases hop with hop | hop <;> (rw [hop]; rfl)
    · simp only [List.mem_cons] at hop
      rcases hop with hop | hop
      · rw [hop]; rfl
      · exact ih _ op hop

/-- The operations of `sendPacket` on the line: none when `Verify` fails, else the write of
the first 8 bytes of `buff` and then the reads of the loop. -/
theorem sendPacket_traced_fst (s : RotaryValve) (out : BufferedSerial) :
    (sendPacket.traced s out).1 =
      if s.Verify.1 = true then
        ChannelOp.write (s.Verify.2.buff.take 8) ::
          (sendPacket.listenTraced (List.replicate 8 0) out.pending).1
      else [] := by
  unfold sendPacket.traced
  rcases s.Verify with ⟨ok, s1⟩
  cases ok
  · simp
  · simp only [if_true, BufferedSerial.write]
    rcases sendPacket.listenTraced (List.replicate 8 0) out.pending with ⟨ops, _ | r⟩ <;> rfl

/-- The traced `sendPacket` returns what `sendPacket` returns. -/
theorem sendPacket_traced_snd (s : RotaryValve) (out : BufferedSerial) :
    (sendPacket.traced s out).2 = s.sendPacket out := by
  unfold sendPacket.traced sendPacket
  rcases s.Verify with ⟨ok, s1⟩
  cases ok
  · simp
  · simp only [if_true, BufferedSerial.write]
    rw [← listenTraced_snd]
    rcases sendPacket.listenTraced (List.replicate 8 0) out.pending with ⟨ops, _ | r⟩ <;> rfl

/-- The operations of `Move` on the line are those of its `sendPacket`. -/
theorem Move_traced_fst (s : RotaryValve) (out : BufferedSerial) (p : Position) :
    (Move.traced s out p).1 =
      (sendPacket.traced (buildPacket { s with func := 0x44, param := p.val }) out).1 := by
  simp only [Move.traced]
  rcases sendPacket.traced (buildPacket { s with func := 0x44, param := p.val }) out
    with ⟨ops, _ | r⟩ <;> rfl

/-- The traced `Move` returns what `Move` returns. -/
theorem Move_traced_snd (s : RotaryValve) (out : BufferedSerial) (p : Position) :
    (Move.traced s out p).2 = s.Move out p := by
  simp only [Move.traced, Move]
  rw [← sendPacket_traced_snd]
  rcases sendPacket.traced (buildPacket { s with func := 0x44, param := p.val }) out
    with ⟨ops, _ | r⟩ <;> rfl

/-- The operations of `Home` on the line are those of its `sendPacket`. -/
theorem Home_traced_fst (s : RotaryValve) (out : BufferedSerial) :
    (Home.traced s out).1 =
      (sendPacket.traced (buildPacket { s with func := 0x45, param := 0x00 }) out).1 := by
  unfold Home.traced
  dsimp only
  generalize sendPacket.traced (buildPacket _) out = t
  rcases t with ⟨ops, _ | r⟩ <;> rfl

/-- The traced `Home` returns what `Home` returns. -/
theorem Home_traced_snd (s : RotaryValve) (out : BufferedSerial) :
    (Home.traced s out).2 = s.Home out := by
  unfold Home.traced Home
  dsimp only
  rw [← sendPacket_traced_snd]
  generalize sendPacket.traced (buildPacket _) out = t
  rcases t with ⟨ops, _ | r⟩ <;> rfl

/-- When `sendPacket` returns and `Verify` passed, the line has one more write, of the first
8 bytes of `buff`. -/
theorem sendPacket_written (s s' : RotaryValve) (out out' : BufferedSerial)
    (hv : s.Verify.1 = true) (h : s.sendPacket out = some (s', out')) :
    out'.written = out.written ++ [s.buff.take 8] := by
  rw [sendPacket_eq, if_pos hv, Option.map_eq_some'] at h
  obtain ⟨r, -, hr⟩ := h
  cases hr
  rw [Verify_snd s]

/-- The call `Verify` leaves `buff` and `message` as they were. -/
theorem Verify_buff_message (s : RotaryValve) :
    s.Verify.2.buff = s.buff ∧ s.Verify.2.message = s.message := by
  rw [Verify_snd s]
  exact ⟨rfl, rfl⟩

/-- When `Verify` passes, the operations of `sendPacket` on the line are one write of the 8
bytes of `buff` and after it reads only. -/
theorem sendPacket_ops (s : RotaryValve) (out : BufferedSerial)
    (hv : s.Verify.1 = true) (hb : s.buff.length = 8) :
    ∃ reads, (sendPacket.traced s out).1 = ChannelOp.write s.buff :: reads ∧
      ∀ op ∈ reads, op.isRead = true := by
  refine ⟨(sendPacket.listenTraced (List.replicate 8 0) out.pending).1, ?_,
    listenTraced_reads _ _⟩
  rw [sendPacket_traced_fst, if_pos hv, (Verify_buff_message s).1, List.take_of_length_le hb.le]

/-- The frame `buildPacket` builds for a byte-sized parameter at a byte-sized address and
func, and the verdict of `Verify` on it. -/
theorem buildPacket_small (s : RotaryValve)
    (ha : s.address < 256) (hf : s.func < 256) (hp : s.param < 256) :
    s.buildPacket.buff =
      [0xCC, s.address, s.func, s.param, 0x00, 0xDD,
        (0xCC + s.address + s.func + s.param + 0xDD) % 256,
        (0xCC + s.address + s.func + s.param + 0xDD) / 256] ∧
    s.buildPacket.Verify.1 = true := by
  constructor
  · rw [buildPacket_buff_eq s (by omega)]
    have h1 : s.param % 256 = s.param := Nat.mod_eq_of_lt hp
    have h2 : s.param / 256 = 0 := Nat.div_eq_of_lt hp
    have h3 : (0xCC + s.address + s.func + s.param + 0xDD) % 65536 =
        0xCC + s.address + s.func + s.param + 0xDD := Nat.mod_eq_of_lt (by omega)
    rw [h1, h2, h3]
  · rw [Verify_buildPacket_iff]
    omega

/-- C15: for every state (of an 8-byte `buff`): when `Verify` returns `false`, `sendPacket`
performs no operation on the line, returns with the line as it was, nothing written and no
byte consumed, and leaves `message` unchanged; when `Verify` returns `true`, the first
operation of `sendPacket` on the line is a write of exactly the 8 bytes of `buff`, every
operation after it is a read, and when `sendPacket` returns that write is the only one the
line has got. -/
theorem sendPacket_sends_only_verified (s : RotaryValve) (out : BufferedSerial)
    (hb : s.buff.length = 8) :
    (s.Verify.1 = false →
      sendPacket.traced s out = ([], some (s.Verify.2, out)) ∧
      s.sendPacket out = some (s.Verify.2, out) ∧
      s.Verify.2.message = s.message) ∧
    (s.Verify.1 = true →
      (∃ reads, (sendPacket.traced s out).1 = ChannelOp.write s.buff :: reads ∧
        ∀ op ∈ reads, op.isRead = true) ∧
      ∀ s' out', s.sendPacket out = some (s', out') →
        out'.written = out.written ++ [s.buff]) := by
  constructor
  · intro hv
    have hsend : s.sendPacket out = some (s.Verify.2, out) := by
      rw [sendPacket_eq, if_neg (by simp [hv])]
    have hops : (sendPacket.traced s out).1 = [] := by
      rw [sendPacket_traced_fst, if_neg (by simp [hv])]
    refine ⟨?_, hsend, (Verify_buff_message s).2⟩
    rw [← hsend, ← sendPacket_traced_snd, ← hops]
  · intro hv
    refine ⟨sendPacket_ops s out hv hb, ?_⟩
    intro s' out' h
    rw [sendPacket_written s s' out out' hv h, List.take_of_length_le hb.le]

/-- The frame with the wrapped checksum of `valveWrap` is not sent; the frame of `valve0`
is. -/
theorem sendPacket_sends_only_verified_witness :
    valveWrap.buildPacket.buff.length = 8 ∧ valveWrap.buildPacket.Verify.1 = false ∧
    sendPacket.traced valveWrap.buildPacket lineError
      = ([], some (valveWrap.buildPacket.Verify.2, lineError)) ∧
    valve0.buildPacket.buff.length = 8 ∧ valve0.buildPacket.Verify.1 = true ∧
    ∃ reads, (sendPacket.traced valve0.buildPacket lineError).1
      = ChannelOp.write valve0.buildPacket.buff :: reads ∧ ∀ op ∈ reads, op.isRead = true :=
  ⟨rfl, by decide,
    ((sendPacket_sends_only_verified valveWrap.buildPacket lineError rfl).1 (by decide)).1,
    rfl, by decide,
    ((sendPacket_sends_only_verified valve0.buildPacket lineError rfl).2 (by decide)).1⟩

/-- C13: for every address in [0,255] and every position `p`, the frame `Move(p)` hands to
`sendPacket` passes `Verify`, the first operation of `Move(p)` on the line is the write of the
8 bytes `[0xCC, a, 0x44, p, 0x00, 0xDD, s mod 256, s div 256]` with
`s = 0xCC + a + 0x44 + p + 0xDD`, every operation after it is a read, and when `Move(p)`
returns that write is the only one the line has got; and likewise `Home()` with
`[0xCC, a, 0x45, 0x00, 0x00, 0xDD, s mod 256, s div 256]`, `s = 0xCC + a + 0x45 + 0xDD`,
whatever `param` (and `func`) the object held before. -/
theorem Move_Home_transmit (s : RotaryValve) (out : BufferedSerial) (p : Position)
    (ha : s.address < 256) :
    ((buildPacket { s with func := 0x44, param := p.val }).Verify.1 = true ∧
      (∃ reads, (Move.traced s out p).1 =
          ChannelOp.write [0xCC, s.address, 0x44, p.val, 0x00, 0xDD,
            (0xCC + s.address + 0x44 + p.val + 0xDD) % 256,
            (0xCC + s.address + 0x44 + p.val + 0xDD) / 256] :: reads ∧
        ∀ op ∈ reads, op.isRead = true) ∧
      ∀ s' out', s.Move out p = some (s', out') →
        out'.written = out.written ++
          [[0xCC, s.address, 0x44, p.val, 0x00, 0xDD,
            (0xCC + s.address + 0x44 + p.val + 0xDD) % 256,
            (0xCC + s.address + 0x44 + p.val + 0xDD) / 256]]) ∧
    ((buildPacket { s with func := 0x45, param := 0x00 }).Verify.1 = true ∧
      (∃ reads, (Home.traced s out).1 =
          ChannelOp.write [0xCC, s.address, 0x45, 0x00, 0x00, 0xDD,
            (0xCC + s.address + 0x45 + 0xDD) % 256,
            (0xCC + s.address + 0x45 + 0xDD) / 256] :: reads ∧
        ∀ op ∈ reads, op.isRead = true) ∧
      ∀ s' out', s.Home out = some (s', out') →
        out'.written = out.written ++
          [[0xCC, s.address, 0x45, 0x00, 0x00, 0xDD,
            (0xCC + s.address + 0x45 + 0xDD) % 256,
            (0xCC + s.address + 0x45 + 0xDD) / 256]]) := by
  have hp := Position_val_range p
  obtain ⟨hbm, hvm⟩ := buildPacket_small { s with func := 0x44, param := p.val } ha
    (show (0x44 : Nat) < 256 by decide) (show p.val < 256 by omega)
  obtain ⟨hbh0, hvh⟩ := buildPacket_small { s with func := 0x45, param := 0x00 } ha
    (show (0x45 : Nat) < 256 by decide) (show (0x00 : Nat) < 256 by decide)
  have hbh : (buildPacket { s with func := 0x45, param := 0x00 }).buff =
      [0xCC, s.address, 0x45, 0x00, 0x00, 0xDD,
        (0xCC + s.address + 0x45 + 0xDD) % 256, (0xCC + s.address + 0x45 + 0xDD) / 256] := by
    rw [hbh0]
    dsimp only
  have hlm : (buildPacket { s with func := 0x44, param := p.val }).buff.length = 8 := rfl
  have hlh : (buildPacket { s with func := 0x45, param := 0x00 }).buff.length = 8 := rfl
  refine ⟨⟨hvm, ?_, ?_⟩, ⟨hvh, ?_, ?_⟩⟩
  · rw [Move_traced_fst, ← hbm]
    exact sendPacket_ops _ out hvm hlm
  · intro s' out' h
    rw [Move_eq, Option.map_eq_some'] at h
    obtain ⟨r, hr, hs⟩ := h
    cases hs
    rw [sendPacket_written _ r.1 out r.2 hvm hr, List.take_of_length_le hlm.le, hbm]
  · rw [Home_traced_fst]
    obtain ⟨reads, hops, hreads⟩ := sendPacket_ops _ out hvh hlh
    refine ⟨reads, ?_, hreads⟩
    rw [hops, hbh]
  · intro s' out' h
    rw [Home_eq, Option.map_eq_some'] at h
    obtain ⟨r, hr, hs⟩ := h
    cases hs
    rw [sendPacket_written _ r.1 out r.2 hvh hr, List.take_of_length_le hlh.le, hbh]

/-- The frames of `Move(FIVE)` and of `Home()` of `valve2`, at address `0x12` and with the
parameter `0xABCD` left over. -/
theorem Move_Home_transmit_witness :
    valve2.address < 256 ∧
    (∃ reads, (Move.traced valve2 lineTwice Position.FIVE).1 =
        ChannelOp.write [0xCC, 0x12, 0x44, 0x05, 0x00, 0xDD, 0x04, 0x02] :: reads ∧
      ∀ op ∈ reads, op.isRead = true) ∧
    (∃ reads, (Home.traced valve2 lineTwice).1 =
        ChannelOp.write [0xCC, 0x12, 0x45, 0x00, 0x00, 0xDD, 0x00, 0x02] :: reads ∧
      ∀ op ∈ reads, op.isRead = true) :=
  ⟨by decide, (Move_Home_transmit valve2 lineTwice Position.FIVE (by decide)).1.2.1,
    (Move_Home_transmit valve2 lineTwice Position.FIVE (by decide)).2.2.1⟩

/-! ## The flag `isHome` over sequences of calls -/

/-- A call other than `Move` and `Home` leaves `isHome` as it was. -/
theorem call_isHome_other (s s' : RotaryValve) (out out' : BufferedSerial) (op : Op)
    (hop : op.isCommand = false) (h : call s out op = some (s', out')) :
    s'.isHome = s.isHome := by
  cases op with
  | buildPacket => cases h; rfl
  | getBuff => cases h; rfl
  | getMessage => cases h; rfl
  | Verify =>
    cases h
    rw [Verify_snd s]
  | sendPacket => exact (sendPacket_members s s' out out' h).2.2.2.2.2.2.2.2.2.2
  | Move p => cases hop
  | Home => cases hop

/-- After a sequence of calls `isHome` is `true` exactly when the most recent command was a
`Home`, or there was no command and `isHome` was `true` before. -/
theorem calls_isHome (ops : List Op) :
    ∀ (s s' : RotaryValve) (out out' : BufferedSerial), calls s out ops = some (s', out') →
      (s'.isHome = true ↔
        lastCommand ops = some Op.Home ∨ (lastCommand ops = none ∧ s.isHome = true)) := by
  induction ops with
  | nil =>
    intro s s' out out' h
    cases h
    simp [lastCommand]
  | cons op ops ih =>
    intro s s' out out' h
    simp only [calls] at h
    cases hc : call s out op with
    | none => rw [hc] at h; cases h
    | some r =>
      rw [hc] at h
      have hih := ih r.1 s' r.2 out' h
      rw [hih]
      cases hl : lastCommand ops with
      | some c => simp [lastCommand, hl]
      | none =>
        cases op with
        | Move p =>
          have := (Move_members s r.1 out r.2 p hc).2
          simp [lastCommand, hl, Op.isCommand, this]
        | Home =>
          have := (Home_members s r.1 out r.2 hc).2
          simp [lastCommand, hl, Op.isCommand, this]
        | buildPacket =>
          have := call_isHome_other s r.1 out r.2 Op.buildPacket rfl hc
          simp [lastCommand, hl, Op.isCommand, this]
        | getBuff =>
          have := call_isHome_other s r.1 out r.2 Op.getBuff rfl hc
          simp [lastCommand, hl, Op.isCommand, this]
        | getMessage =>
          have := call_isHome_other s r.1 out r.2 Op.getMessage rfl hc
          simp [lastCommand, hl, Op.isCommand, this]
        | Verify =>
          have := call_isHome_other s r.1 out r.2 Op.Verify rfl hc
          simp [lastCommand, hl, Op.isCommand, this]
        | sendPacket =>
          have := call_isHome_other s r.1 out r.2 Op.sendPacket rfl hc
          simp [lastCommand, hl, Op.isCommand, this]

/-- C11: `isHome` is `false` at construction, whatever the storage of the object held; each
call of `buildPacket`, `Verify`, `sendPacket`, `getBuff` and `getMessage` that returns leaves
`isHome` unchanged; and after every sequence of calls on a constructed object, each returned,
`isHome` is `true` exactly when the most recent `Move` or `Home` call was a `Home` (and
`false` if there was none). -/
theorem isHome_tracks_last_command (raw : RotaryValve) (TX RX adrs baud : Nat)
    (out out' : BufferedSerial) (ops : List Op) (s' : RotaryValve)
    (h : calls (new raw TX RX adrs baud) out ops = some (s', out')) :
    (new raw TX RX adrs baud).isHome = false ∧
    (∀ (s t : RotaryValve) (o o' : BufferedSerial) (op : Op),
      op.isCommand = false → call s o op = some (t, o') → t.isHome = s.isHome) ∧
    (s'.isHome = true ↔ lastCommand ops = some Op.Home) := by
  refine ⟨rfl, fun s t o o' op hop hc => call_isHome_other s t o o' op hop hc, ?_⟩
  rw [calls_isHome ops _ s' out out' h]
  constructor
  · rintro (hl | ⟨-, hf⟩)
    · exact hl
    · cases hf
  · exact Or.inl

/-- A valve constructed in storage that held `isHome = true`, after a `Move`, a `Home` and
other calls. -/
theorem isHome_tracks_last_command_witness :
    rawJunk.isHome = true ∧
    calls (new rawJunk 1 2 0x00 9600) lineTwice callsHome = some (valveCalled, lineTwiceCalled) ∧
    (valveCalled.isHome = true ↔ lastCommand callsHome = some Op.Home) :=
  ⟨rfl, by decide,
    (isHome_tracks_last_command rawJunk 1 2 0x00 9600 lineTwice lineTwiceCalled callsHome
      valveCalled (by decide)).2.2⟩

end RotaryValve

end Valve
